import Mathlib

/-!
Shallow embedding of the OAuth state-veiling broker
(`controllers/statestorage.go`, the common controller file and the
handlers file of the repository).  External collaborators (the session
manager, the JWT state codec, the Kubernetes client, the OAuth2 client,
the token storage, the HTML templates) are modelled as explicit
parameters; each controller operation is a pure function from those
parameters and the request to its observable outcome, including a trace
of the calls it makes to the provider token endpoint and to the cluster
authorization API.
-/

namespace SPI

/-! ## statestorage.go -/

/-- The alphabet constant `letterBytes` of statestorage.go. -/
def letterBytes : String := "abcdefghijklmnopqrstuvwxyz1234567890"

/-- Indexing `letterBytes[n]` for a draw `n` of `rand.Int(rand.Reader, 36)`. -/
def letterAt (j : Fin 36) : Char :=
  letterBytes.data.get (Fin.cast (by decide) j)

/-- The two module-level errors of statestorage.go: `noStateError`
(`"request has no state parameter"`) and `randomStringGenerationError`
(`"not able to generate new random string"`). -/
inductive StateStorageError
  | noStateError
  | randomStringGenerationError
deriving DecidableEq, Repr

/-- The loop body of `randStringBytes`: starting at draw index `i`, take `m`
further draws from the secure source `rnd` (a draw returns `none` when
`crypto/rand` fails) and map each onto `letterBytes`. -/
def randChars (rnd : Nat → Option (Fin 36)) : Nat → Nat → Option (List Char)
  | _, 0 => some []
  | i, Nat.succ m =>
    match rnd i with
    | none => none
    | some j =>
      match randChars rnd (i + 1) m with
      | none => none
      | some rest => some (letterAt j :: rest)

/-- Function `randStringBytes(n)`: draws `n` secure random values below 36 and indexes
`letterBytes`; any failing draw aborts with `randomStringGenerationError`. -/
def randStringBytes (rnd : Nat → Option (Fin 36)) (n : Nat) :
    Except StateStorageError String :=
  match randChars rnd 0 n with
  | none => .error .randomStringGenerationError
  | some cs => .ok (String.mk cs)

/-- The scs session-manager data visible to this package: the keyed map from
veiled-state keys to real-state values. -/
abbrev SessionStore := List (String × String)

/-- Operation `sessionManager.Put(ctx, key, value)`. -/
def SessionStore.put (s : SessionStore) (k v : String) : SessionStore :=
  (k, v) :: s

/-- Operation `sessionManager.GetString(ctx, key)`: returns the stored string, or the
empty string when the key is absent or expired. -/
def SessionStore.getString (s : SessionStore) (k : String) : String :=
  match s.find? (fun e => e.1 == k) with
  | some e => e.2
  | none => ""

/-- The parts of an incoming `*http.Request` the embedded code reads.  Go's
`Query().Get` / `FormValue` return `""` for an absent parameter, so every
field is a plain string with `""` meaning absent. -/
structure Request where
  state : String
  code : String
  scope : String
  redirectAfterLogin : String
  errorParam : String
  errorDescriptionParam : String
deriving DecidableEq, Repr

/-- Method `StateStorage.VeilRealState(req)`: rejects an empty `state` parameter with
`noStateError`, generates a fresh 32-character veil, records
`veil ↦ state` in the session store and returns the veil.  The returned
store is the store after the call. -/
def VeilRealState (rnd : Nat → Option (Fin 36)) (store : SessionStore)
    (req : Request) : Except StateStorageError String × SessionStore :=
  let state := req.state
  if state = "" then (.error .noStateError, store)
  else
    match randStringBytes rnd 32 with
    | .error e => (.error e, store)
    | .ok newState => (.ok newState, store.put newState state)

/-- Method `StateStorage.UnveilState(ctx, req)`: rejects an empty `state` parameter
with `noStateError`, otherwise looks the parameter up with `GetString`
(which yields `""` for an absent key) and returns the result.  The body
performs no write to the session store, so the store passes through. -/
def UnveilState (store : SessionStore) (req : Request) :
    Except StateStorageError String × SessionStore :=
  if req.state = "" then (.error .noStateError, store)
  else (.ok (store.getString req.state), store)

/-! ## The common controller (OAuth flow) -/

/-- Type `oauthstate.AnonymousOAuthState`: the caller-originated signed payload. -/
structure AnonymousOAuthState where
  tokenName : String
  tokenNamespace : String
  serviceProviderType : String
  scopes : List String
deriving DecidableEq, Repr

/-- Modelled from the spec: the anonymous-state codec
(`oauthstate.NewCodec` / `ParseAnonymous` / `ParseInto`) lives outside
this repository.  The spec requires `Encode(struct) -> string` and
`Decode(string) -> (struct, error)` that fail closed on any
signature/format mismatch, so only strings produced by `encode` parse,
and a signed non-trivial payload is never the empty string. -/
structure Codec where
  encode : AnonymousOAuthState → String
  parse : String → Option AnonymousOAuthState
  parse_fail_closed : ∀ s, (parse s).isSome → ∃ st, s = encode st
  encode_ne_empty : ∀ st, encode st ≠ ""

/-- An encoded string never parses when it is empty: fail-closed parsing
only accepts codec outputs, and those are non-empty. -/
theorem Codec.parse_empty (c : Codec) : c.parse "" = none := by
  cases h : c.parse "" with
  | none => rfl
  | some st =>
    rcases c.parse_fail_closed "" (by simp [h]) with ⟨st', hst'⟩
    exact absurd hst'.symm (c.encode_ne_empty st')

/-- The resource attributes of the `SelfSubjectAccessReview` built by
`checkIdentityHasAccess`. -/
structure K8sReview where
  reviewNamespace : String
  verb : String
  group : String
  version : String
  resource : String
deriving DecidableEq, Repr

/-- One `K8sClient.Create` call for an access review, recording the bearer
identity placed into the call context by `WithAuthIntoContext`. -/
structure CreateCall where
  identity : String
  review : K8sReview
deriving DecidableEq, Repr

/-- Type `oauth2.Token` as stored by `syncTokenData`. -/
structure Token where
  accessToken : String
  tokenType : String
  refreshToken : String
  expiry : Nat
deriving DecidableEq, Repr

/-- The `oauthFinishResult` values used by the controller. -/
inductive OauthFinishResult
  | oauthFinishAuthenticated
  | oauthFinishK8sAuthRequired
  | oauthFinishError
deriving DecidableEq, Repr

/-- Type `exchangeResult`: `exchangeState` (which embeds the anonymous state)
plus the finish result, the provider token and the caller's bearer. -/
structure ExchangeResult where
  state : AnonymousOAuthState
  result : OauthFinishResult
  token : Option Token
  authorizationHeader : String
deriving DecidableEq, Repr

/-- The zero-valued `exchangeResult{result: r}` literals of the source. -/
def emptyExchangeResult (r : OauthFinishResult) : ExchangeResult :=
  { state := ⟨"", "", "", []⟩, result := r, token := none,
    authorizationHeader := "" }

/-- The errors `finishOAuthExchange` can return. -/
inductive FinishError
  | unveilFailed (e : StateStorageError)
  | codecFailed
  | parseFailed
  | noActiveSession
  | exchangeFailed
deriving DecidableEq, Repr

/-- The behaviour of the external collaborators for one request:
codec construction and parsing, `Authenticator.GetToken`, the cluster
client's review answer, the provider token endpoint, object fetch,
token storage and template rendering, plus the secure random source. -/
structure Env where
  codec : Codec
  newCodecOk : Bool
  getToken : Option String
  k8sCreate : String → K8sReview → Option Bool
  exchange : String → String → Option Token
  k8sGetOk : Bool
  storeOk : Bool
  templateOk : Bool
  rnd : Nat → Option (Fin 36)

/-- The `commonController` configuration fields the embedded paths read. -/
structure Config where
  clientId : String
  clientSecret : String
  serviceProviderType : String
  baseUrl : String
deriving DecidableEq, Repr

/-- Method `checkIdentityHasAccess(token, req, state)`: builds a
`SelfSubjectAccessReview` for `create` of `spiaccesstokendataupdates`
in the state's namespace, places the caller-supplied `token` into the
call context with `WithAuthIntoContext`, and issues `K8sClient.Create`
under that context.  Returns the review's `Status.Allowed`, or an error
on a transport failure, together with the recorded `Create` call. -/
def checkIdentityHasAccess (k8sCreate : String → K8sReview → Option Bool)
    (token : String) (state : AnonymousOAuthState) :
    Except Unit Bool × CreateCall :=
  let review : K8sReview :=
    { reviewNamespace := state.tokenNamespace
      verb := "create"
      group := "appstudio.redhat.com"
      version := "v1beta1"
      resource := "spiaccesstokendataupdates" }
  let call : CreateCall := { identity := token, review := review }
  match k8sCreate token review with
  | none => (.error (), call)
  | some allowed => (.ok allowed, call)

/-- The observable outcome of `Authenticate`: the HTTP status written, the
access-review calls made, the provider exchange calls made (never any),
the session store after the call, the veil error surfaced if any, and
the veiled state handed to `AuthCodeURL` on success. -/
structure AuthOutcome where
  status : Nat
  reviews : List CreateCall
  exchangeCalls : Nat
  store : SessionStore
  veilErr : Option StateStorageError
  veiled : Option String

/-- Method `commonController.Authenticate(w, r)`, step for step:
instantiate the codec (500 on failure), `ParseAnonymous` the `state`
form value (400 on failure), `Authenticator.GetToken` (401 on failure),
`checkIdentityHasAccess` (500 on error, 401 when denied),
`VeilRealState` (its error is written with `http.StatusBadRequest`),
then render the redirect page with `AuthCodeURL(newStateString)`
(500 on template failure, 200 otherwise). -/
def Authenticate (env : Env) (store : SessionStore) (req : Request) :
    AuthOutcome :=
  let stateString := req.state
  if !env.newCodecOk then
    ⟨500, [], 0, store, none, none⟩
  else
    match env.codec.parse stateString with
    | none => ⟨400, [], 0, store, none, none⟩
    | some state =>
      match env.getToken with
      | none => ⟨401, [], 0, store, none, none⟩
      | some token =>
        let check := checkIdentityHasAccess env.k8sCreate token state
        match check.1 with
        | .error _ => ⟨500, [check.2], 0, store, none, none⟩
        | .ok hasAccess =>
          if !hasAccess then ⟨401, [check.2], 0, store, none, none⟩
          else
            match VeilRealState env.rnd store req with
            | (.error e, store1) => ⟨400, [check.2], 0, store1, some e, none⟩
            | (.ok newStateString, store1) =>
              if !env.templateOk then
                ⟨500, [check.2], 0, store1, none, some newStateString⟩
              else ⟨200, [check.2], 0, store1, none, some newStateString⟩

/-- The observable outcome of `finishOAuthExchange`: the exchange result,
the error if any, and the calls made to the provider token endpoint and
to the cluster authorization API (the body contains no access review). -/
structure FinishOutcome where
  res : ExchangeResult
  err : Option FinishError
  exchangeCalls : Nat
  reviews : List CreateCall

/-- Method `commonController.finishOAuthExchange(ctx, r, endpoint)`, step for step:
`UnveilState` (error wrapped as a failed unveil), codec construction,
`ParseInto` of the unveiled string, `Authenticator.GetToken` (on failure
the result is `oauthFinishK8sAuthRequired` with `noActiveSessionError`),
then `oauthCfg.Exchange(ctx, code, scope)` against the provider. -/
def finishOAuthExchange (env : Env) (store : SessionStore) (req : Request) :
    FinishOutcome :=
  match (UnveilState store req).1 with
  | .error e =>
    ⟨emptyExchangeResult .oauthFinishError, some (.unveilFailed e), 0, []⟩
  | .ok stateString =>
    if !env.newCodecOk then
      ⟨emptyExchangeResult .oauthFinishError, some .codecFailed, 0, []⟩
    else
      match env.codec.parse stateString with
      | none =>
        ⟨emptyExchangeResult .oauthFinishError, some .parseFailed, 0, []⟩
      | some state =>
        match env.getToken with
        | none =>
          ⟨emptyExchangeResult .oauthFinishK8sAuthRequired,
            some .noActiveSession, 0, []⟩
        | some k8sToken =>
          match env.exchange req.code req.scope with
          | none =>
            ⟨emptyExchangeResult .oauthFinishError, some .exchangeFailed,
              1, []⟩
          | some token =>
            ⟨{ state := state, result := .oauthFinishAuthenticated,
               token := some token, authorizationHeader := k8sToken },
              none, 1, []⟩

/-- Method `syncTokenData(ctx, exchange)`: fetch the `SPIAccessToken` object, then
`TokenStorage.Store` the token.  The second component counts the `Store`
calls made. -/
def syncTokenData (env : Env) : Except Unit Unit × Nat :=
  if !env.k8sGetOk then (.error (), 0)
  else if !env.storeOk then (.error (), 1)
  else (.ok (), 1)

/-- Go's `strings.TrimSuffix`. -/
def trimSuffix (s suf : String) : String :=
  if s.endsWith suf then s.dropRight suf.length else s

/-- The observable outcome of `Callback`. -/
structure CallbackOutcome where
  status : Nat
  reviews : List CreateCall
  exchangeCalls : Nat
  storeCalls : Nat
  store : SessionStore
  redirectLocation : Option String

/-- Method `commonController.Callback(ctx, w, r)`, step for step: run
`finishOAuthExchange`; any error is written with `http.StatusBadRequest`
(400); only then would `oauthFinishK8sAuthRequired` be answered with 401;
`syncTokenData` failure gives 500; success redirects (302) to
`redirect_after_login` or to the default `callback_success` path. -/
def Callback (env : Env) (cfg : Config) (store : SessionStore)
    (req : Request) : CallbackOutcome :=
  let fin := finishOAuthExchange env store req
  if fin.err.isSome then
    ⟨400, fin.reviews, fin.exchangeCalls, 0, store, none⟩
  else if fin.res.result = .oauthFinishK8sAuthRequired then
    ⟨401, fin.reviews, fin.exchangeCalls, 0, store, none⟩
  else
    match syncTokenData env with
    | (.error _, n) => ⟨500, fin.reviews, fin.exchangeCalls, n, store, none⟩
    | (.ok _, n) =>
      let redirectLocation :=
        if req.redirectAfterLogin = "" then
          trimSuffix cfg.baseUrl "/" ++ "/" ++ "callback_success"
        else req.redirectAfterLogin
      ⟨302, fin.reviews, fin.exchangeCalls, n, store, some redirectLocation⟩

/-! ## The callback error handler -/

/-- Type `viewData` passed to the `callback_error.html` template. -/
structure ViewData where
  Title : String
  Message : String
deriving DecidableEq, Repr

/-- Handler `CallbackErrorHandler(w, r)`: reads the raw `error` and
`error_description` query parameters and renders them as the template's
`Title` and `Message`; 200 when the template executes, 500 otherwise. -/
def CallbackErrorHandler (templateOk : Bool) (req : Request) :
    ViewData × Nat :=
  let errorMsg := req.errorParam
  let errorDescription := req.errorDescriptionParam
  let data : ViewData := { Title := errorMsg, Message := errorDescription }
  (data, if templateOk then 200 else 500)

/-! ## Helper lemmas about the embedded definitions -/

/-- Every character produced by indexing the alphabet is in the alphabet. -/
theorem letterAt_mem (j : Fin 36) : letterAt j ∈ letterBytes.data :=
  List.mem_iff_get.mpr ⟨_, rfl⟩

/-- A successful run of the `randStringBytes` loop yields exactly as many
characters as draws were requested. -/
theorem randChars_length (rnd : Nat → Option (Fin 36)) :
    ∀ (m i : Nat) (cs : List Char), randChars rnd i m = some cs →
      cs.length = m := by
  intro m
  induction m with
  | zero =>
    intro i cs h
    simp only [randChars, Option.some.injEq] at h
    simp [← h]
  | succ m ih =>
    intro i cs h
    simp only [randChars] at h
    cases hr : rnd i with
    | none => rw [hr] at h; exact absurd h (by simp)
    | some j =>
      rw [hr] at h
      cases hc : randChars rnd (i + 1) m with
      | none => rw [hc] at h; exact absurd h (by simp)
      | some rest =>
        rw [hc] at h
        simp only [Option.some.injEq] at h
        rw [← h]
        simp [ih (i + 1) rest hc]

/-- Every character produced by the `randStringBytes` loop is in the
alphabet. -/
theorem randChars_mem (rnd : Nat → Option (Fin 36)) :
    ∀ (m i : Nat) (cs : List Char), randChars rnd i m = some cs →
      ∀ c ∈ cs, c ∈ letterBytes.data := by
  intro m
  induction m with
  | zero =>
    intro i cs h c hc
    simp only [randChars, Option.some.injEq] at h
    rw [← h] at hc
    simp at hc
  | succ m ih =>
    intro i cs h c hc
    simp only [randChars] at h
    cases hr : rnd i with
    | none => rw [hr] at h; exact absurd h (by simp)
    | some j =>
      rw [hr] at h
      cases hk : randChars rnd (i + 1) m with
      | none => rw [hk] at h; exact absurd h (by simp)
      | some rest =>
        rw [hk] at h
        simp only [Option.some.injEq] at h
        rw [← h] at hc
        rcases List.mem_cons.mp hc with h1 | h2
        · rw [h1]; exact letterAt_mem j
        · exact ih (i + 1) rest hk c h2

/-- Position `k` of a successful `randStringBytes` loop run starting at draw
index `i` is the alphabet character selected by draw `i + k`. -/
theorem randChars_getD (rnd : Nat → Option (Fin 36)) :
    ∀ (m i : Nat) (cs : List Char), randChars rnd i m = some cs →
      ∀ k, k < m → ∃ j, rnd (i + k) = some j ∧ cs.getD k 'a' = letterAt j := by
  intro m
  induction m with
  | zero => intro i cs _ k hk; exact absurd hk (Nat.not_lt_zero k)
  | succ m ih =>
    intro i cs h k hk
    simp only [randChars] at h
    cases hr : rnd i with
    | none => rw [hr] at h; exact absurd h (by simp)
    | some j =>
      rw [hr] at h
      cases hc : randChars rnd (i + 1) m with
      | none => rw [hc] at h; exact absurd h (by simp)
      | some rest =>
        rw [hc] at h
        simp only [Option.some.injEq] at h
        rw [← h]
        cases k with
        | zero => exact ⟨j, by simpa using hr, rfl⟩
        | succ k =>
          rcases ih (i + 1) rest hc k (Nat.lt_of_succ_lt_succ hk) with
            ⟨j', hj', hg⟩
          refine ⟨j', ?_, by simpa using hg⟩
          rwa [show i + (k + 1) = (i + 1) + k by omega]

/-- Looking up a key just stored by `Put` returns the stored value. -/
theorem getString_put (store : SessionStore) (k v : String) :
    (store.put k v).getString k = v := by
  simp [SessionStore.put, SessionStore.getString, List.find?]

/-- Reading via `GetString` of a key absent from the store is the empty string. -/
theorem getString_eq_empty (store : SessionStore) (k : String)
    (h : ∀ p ∈ store, p.1 ≠ k) : store.getString k = "" := by
  have hf : store.find? (fun e => e.1 == k) = none := by
    rw [List.find?_eq_none]
    intro x hx
    simp [h x hx]
  simp [SessionStore.getString, hf]

/-- Function `finishOAuthExchange` issues no cluster access review in any branch. -/
theorem finishOAuthExchange_reviews (env : Env) (store : SessionStore)
    (req : Request) : (finishOAuthExchange env store req).reviews = [] := by
  unfold finishOAuthExchange
  split
  · rfl
  · split
    · rfl
    · split
      · rfl
      · split
        · rfl
        · split <;> rfl

/-- Function `Callback` issues no cluster access review in any branch. -/
theorem Callback_reviews (env : Env) (cfg : Config) (store : SessionStore)
    (req : Request) : (Callback env cfg store req).reviews = [] := by
  unfold Callback
  by_cases h1 : (finishOAuthExchange env store req).err.isSome
  · simp [h1, finishOAuthExchange_reviews]
  · by_cases h2 : (finishOAuthExchange env store req).res.result =
        OauthFinishResult.oauthFinishK8sAuthRequired
    · simp [h1, h2, finishOAuthExchange_reviews]
    · rcases hs : syncTokenData env with ⟨r, n⟩
      cases r <;> simp [h1, h2, hs, finishOAuthExchange_reviews]

/-- The `Create` call recorded by `checkIdentityHasAccess` carries the
caller-supplied token and the review for `create` of
`spiaccesstokendataupdates` in the state's namespace. -/
theorem checkIdentityHasAccess_snd
    (k8sCreate : String → K8sReview → Option Bool) (token : String)
    (state : AnonymousOAuthState) :
    (checkIdentityHasAccess k8sCreate token state).2 =
      { identity := token,
        review := { reviewNamespace := state.tokenNamespace, verb := "create",
                    group := "appstudio.redhat.com", version := "v1beta1",
                    resource := "spiaccesstokendataupdates" } } := by
  simp only [checkIdentityHasAccess]
  split <;> rfl

/-- Once the state parses and a bearer token is extracted, `Authenticate`
records exactly the one access review of `checkIdentityHasAccess`,
whatever the review's answer, the veiling and the template rendering do. -/
theorem Authenticate_reviews (env : Env) (store : SessionStore) (req : Request)
    (token : String) (st : AnonymousOAuthState)
    (hcodec : env.newCodecOk = true)
    (hparse : env.codec.parse req.state = some st)
    (htok : env.getToken = some token) :
    (Authenticate env store req).reviews =
      [(checkIdentityHasAccess env.k8sCreate token st).2] := by
  simp only [Authenticate, hcodec, hparse, htok, Bool.not_true,
    Bool.false_eq_true, if_false]
  rcases h1 : (checkIdentityHasAccess env.k8sCreate token st).1 with _ | b
  · simp [h1]
  · cases b
    · simp [h1]
    · rcases hv : VeilRealState env.rnd store req with ⟨res, store1⟩
      cases res <;> cases htm : env.templateOk <;> simp [h1, hv, htm]

/-! ## Concrete fixtures used by witnesses and counterexamples -/

/-- A concrete anonymous state. -/
def st0 : AnonymousOAuthState := ⟨"tok1", "ns1", "github", ["repo"]⟩

/-- A concrete codec: the one signed payload it accepts is `"jwtstate"`. -/
def codec0 : Codec where
  encode _ := "jwtstate"
  parse s := if s = "jwtstate" then some st0 else none
  parse_fail_closed := by
    intro s h
    by_cases hs : s = "jwtstate"
    · exact ⟨st0, hs⟩
    · simp [hs] at h
  encode_ne_empty := by intro st; simp

/-- A secure source that always draws index 0 (the character `a`). -/
def rnd0 : Nat → Option (Fin 36) := fun _ => some ⟨0, by decide⟩

/-- A concrete provider token. -/
def token0 : Token := ⟨"at", "bearer", "rt", 0⟩

/-- An environment in which every collaborator succeeds. -/
def env0 : Env where
  codec := codec0
  newCodecOk := true
  getToken := some "k8s-bearer"
  k8sCreate := fun _ _ => some true
  exchange := fun _ _ => some token0
  k8sGetOk := true
  storeOk := true
  templateOk := true
  rnd := rnd0

/-- A concrete controller configuration. -/
def cfg0 : Config := ⟨"cid", "csec", "GitHub", "base"⟩

/-- An `Authenticate` request carrying the signed state. -/
def req0 : Request := ⟨"jwtstate", "", "", "", "", ""⟩

/-- A `Callback` request carrying a veiled state key `"v"`. -/
def reqCb : Request := ⟨"v", "code1", "repo", "", "", ""⟩

/-- A store holding the veiled entry `"v" ↦ "jwtstate"`. -/
def storeCb : SessionStore := [("v", "jwtstate")]

/-- A `Callback` request with a forged state key. -/
def reqForged : Request := ⟨"forged", "code1", "", "", "", ""⟩

/-- A request with an empty `state` parameter. -/
def reqEmpty : Request := ⟨"", "", "", "", "", ""⟩

/-- The 32-character string of `a`s produced by `rnd0`. -/
def sA : String := String.mk (List.replicate 32 'a')

/-- An `Authenticate`-shaped request whose real state is `sA` itself. -/
def reqA : Request := ⟨sA, "", "", "", "", ""⟩

/-- An environment whose bearer extraction fails. -/
def envNoTok : Env := { env0 with getToken := none }

/-- An environment whose secure random source fails on every draw. -/
def envRndFail : Env := { env0 with rnd := fun _ => none }

/-- A callback-error request carrying attacker-chosen query parameters. -/
def reqErr : Request := ⟨"", "", "", "", "attacker-title", "attacker-message"⟩

/-- Either an early exit records no review, or the bearer token was
extracted and exactly the one review of `checkIdentityHasAccess` is
recorded. -/
theorem Authenticate_reviews_cases (env : Env) (store : SessionStore)
    (req : Request) :
    (Authenticate env store req).reviews = [] ∨
      ∃ token st, env.getToken = some token ∧
        (Authenticate env store req).reviews =
          [(checkIdentityHasAccess env.k8sCreate token st).2] := by
  cases hc : env.newCodecOk with
  | false => left; simp [Authenticate, hc]
  | true =>
    rcases hp : env.codec.parse req.state with _ | st
    · left; simp [Authenticate, hc, hp]
    · rcases ht : env.getToken with _ | token
      · left; simp [Authenticate, hc, hp, ht]
      · right
        exact ⟨token, st, rfl, Authenticate_reviews env store req token st hc hp ht⟩

/-! ## Claims -/

/-- C1: for every Callback request whose `state` query parameter was never
stored by a prior Authenticate (forged, garbage or expired veiled state),
`finishOAuthExchange` returns an error and the provider token exchange
(`oauthCfg.Exchange`) is never invoked. -/
theorem C1_forged_state_fails_before_exchange (env : Env)
    (store : SessionStore) (req : Request)
    (h : ∀ p ∈ store, p.1 ≠ req.state) :
    (finishOAuthExchange env store req).err.isSome = true ∧
      (finishOAuthExchange env store req).exchangeCalls = 0 := by
  by_cases hs : req.state = ""
  · simp [finishOAuthExchange, UnveilState, hs]
  · have hget : store.getString req.state = "" :=
      getString_eq_empty store req.state h
    cases hc : env.newCodecOk <;>
      simp [finishOAuthExchange, UnveilState, hs, hget, hc, Codec.parse_empty]

/-- C1 witness: a concrete forged callback fails with no exchange call. -/
theorem C1_witness :
    (∀ p ∈ storeCb, p.1 ≠ reqForged.state) ∧
      ((finishOAuthExchange env0 storeCb reqForged).err.isSome = true ∧
        (finishOAuthExchange env0 storeCb reqForged).exchangeCalls = 0) :=
  ⟨by decide,
    C1_forged_state_fails_before_exchange env0 storeCb reqForged (by decide)⟩

/-- C2 counterexample: a complete, successful Callback run performs zero
access reviews, refuting the claim that the AccessGate is evaluated
exactly once during every Callback execution. -/
theorem C2_counterexample :
    (Callback env0 cfg0 storeCb reqCb).status = 302 ∧
      (Callback env0 cfg0 storeCb reqCb).reviews.length = 0 :=
  ⟨rfl, rfl⟩

/-- C2 (amended): once the state parses and the bearer token is extracted,
Authenticate performs exactly one access review, under the bearer
identity active at that call; Callback performs no access review at
all. -/
theorem C2_amended_access_gate (env : Env) (store : SessionStore)
    (req : Request) (token : String) (st : AnonymousOAuthState)
    (hcodec : env.newCodecOk = true)
    (hparse : env.codec.parse req.state = some st)
    (htok : env.getToken = some token) :
    (Authenticate env store req).reviews.map CreateCall.identity = [token] ∧
      ∀ (env2 : Env) (cfg2 : Config) (store2 : SessionStore) (req2 : Request),
        (Callback env2 cfg2 store2 req2).reviews = [] := by
  constructor
  · rw [Authenticate_reviews env store req token st hcodec hparse htok,
      checkIdentityHasAccess_snd]
    rfl
  · intro env2 cfg2 store2 req2
    exact Callback_reviews env2 cfg2 store2 req2

/-- C2 witness: the amended statement at a concrete authenticated run. -/
theorem C2_witness :
    env0.newCodecOk = true ∧ env0.codec.parse req0.state = some st0 ∧
      env0.getToken = some "k8s-bearer" ∧
      ((Authenticate env0 [] req0).reviews.map CreateCall.identity =
          ["k8s-bearer"] ∧
        ∀ (env2 : Env) (cfg2 : Config) (store2 : SessionStore) (req2 : Request),
          (Callback env2 cfg2 store2 req2).reviews = []) :=
  ⟨rfl, rfl, rfl,
    C2_amended_access_gate env0 [] req0 "k8s-bearer" st0 rfl rfl rfl⟩

/-- C3: the identity attached to the cluster authorization call issued by
`checkIdentityHasAccess` is exactly the caller-supplied bearer token
argument, and every review recorded during Authenticate carries the
bearer identity `Authenticator.GetToken` extracted from that request,
never any other credential. -/
theorem C3_review_uses_caller_bearer
    (k8sCreate : String → K8sReview → Option Bool) (token : String)
    (state : AnonymousOAuthState) (env : Env) (store : SessionStore)
    (req : Request) :
    (checkIdentityHasAccess k8sCreate token state).2.identity = token ∧
      ∀ call ∈ (Authenticate env store req).reviews,
        env.getToken = some call.identity := by
  constructor
  · rw [checkIdentityHasAccess_snd]
  · intro call hcall
    rcases Authenticate_reviews_cases env store req with hnil | ⟨t, st, ht, hr⟩
    · rw [hnil] at hcall; simp at hcall
    · rw [hr] at hcall
      rcases List.mem_singleton.mp hcall with rfl
      rw [checkIdentityHasAccess_snd]
      exact ht

/-- C4 counterexample: with the real state equal to 32 letters `a` and a
secure source that draws index 0 throughout, the veiled token equals the
real state, refuting the claim that the veiled token always differs from
`s`. -/
theorem C4_counterexample :
    reqA.state ≠ "" ∧ (VeilRealState rnd0 [] reqA).1 = .ok reqA.state :=
  ⟨by decide, rfl⟩

/-- C4 (amended): for every non-empty real state, veiling and then
unveiling the returned token yields exactly the real state; the veiled
token has length 32, so it differs from the real state whenever the real
state's length is not 32 (equality is possible, though negligibly
likely, when it is). -/
theorem C4_amended_roundtrip (rnd : Nat → Option (Fin 36))
    (store store' : SessionStore) (req req2 : Request) (veiled : String)
    (hne : req.state ≠ "")
    (hveil : VeilRealState rnd store req = (.ok veiled, store'))
    (hreq2 : req2.state = veiled) :
    (UnveilState store' req2).1 = .ok req.state ∧
      veiled.length = 32 ∧
      (req.state.length ≠ 32 → veiled ≠ req.state) := by
  unfold VeilRealState at hveil
  rw [if_neg hne] at hveil
  rcases hrb : randStringBytes rnd 32 with e | s <;> rw [hrb] at hveil
  · simp at hveil
  · simp only [Prod.mk.injEq, Except.ok.injEq] at hveil
    obtain ⟨hs, hst⟩ := hveil
    have hlen : veiled.length = 32 := by
      rw [← hs]
      unfold randStringBytes at hrb
      rcases hc : randChars rnd 0 32 with _ | cs <;> rw [hc] at hrb
      · exact absurd hrb (by simp)
      · simp only [Except.ok.injEq] at hrb
        rw [← hrb, String.length_mk]
        exact randChars_length rnd 32 0 cs hc
    have hne32 : veiled ≠ "" := by
      intro hveq
      rw [hveq] at hlen
      simp at hlen
    refine ⟨?_, hlen, ?_⟩
    · rw [← hst, hs]
      simp [UnveilState, hreq2, hne32, getString_put]
    · intro hl heq
      rw [← heq] at hl
      exact hl hlen

/-- C4 witness: the amended roundtrip at a concrete real state. -/
theorem C4_witness :
    req0.state ≠ "" ∧
      VeilRealState rnd0 [] req0 = (.ok sA, [(sA, "jwtstate")]) ∧
      reqA.state = sA ∧
      ((UnveilState [(sA, "jwtstate")] reqA).1 = .ok req0.state ∧
        sA.length = 32 ∧ (req0.state.length ≠ 32 → sA ≠ req0.state)) :=
  ⟨by decide, rfl, rfl,
    C4_amended_roundtrip rnd0 [] [(sA, "jwtstate")] req0 reqA sA
      (by decide) rfl rfl⟩

/-- C5: at a concrete Callback whose bearer identity cannot be extracted,
the exchange result is `oauthFinishK8sAuthRequired` and no provider
exchange is attempted, but because `finishOAuthExchange` also returns
`noActiveSessionError`, `Callback` answers through its error branch with
HTTP 400, not the 401 of its (unreachable) `K8sAuthRequired` branch. -/
theorem C5_divergence_status_400 :
    (finishOAuthExchange envNoTok storeCb reqCb).res.result =
        OauthFinishResult.oauthFinishK8sAuthRequired ∧
      (finishOAuthExchange envNoTok storeCb reqCb).exchangeCalls = 0 ∧
      (Callback envNoTok cfg0 storeCb reqCb).status = 400 :=
  ⟨rfl, rfl, rfl⟩

/-- C6: Veil with an empty `state` parameter fails with `noStateError` and
stores nothing; Unveil with an empty `state` parameter fails with
`noStateError`; Unveil with a non-empty key absent from the session
store returns the empty string with no error. -/
theorem C6_missing_and_absent_state (rnd : Nat → Option (Fin 36))
    (store : SessionStore) (req1 req2 : Request)
    (h1 : req1.state = "") (h2 : req2.state ≠ "")
    (habs : ∀ p ∈ store, p.1 ≠ req2.state) :
    VeilRealState rnd store req1 = (.error .noStateError, store) ∧
      (UnveilState store req1).1 = .error .noStateError ∧
      (UnveilState store req2).1 = .ok "" := by
  refine ⟨?_, ?_, ?_⟩
  · simp [VeilRealState, h1]
  · simp [UnveilState, h1]
  · simp [UnveilState, h2, getString_eq_empty store req2.state habs]

/-- C6 witness: the three failure modes at concrete requests. -/
theorem C6_witness :
    reqEmpty.state = "" ∧ reqForged.state ≠ "" ∧
      (∀ p ∈ storeCb, p.1 ≠ reqForged.state) ∧
      (VeilRealState rnd0 storeCb reqEmpty = (.error .noStateError, storeCb) ∧
        (UnveilState storeCb reqEmpty).1 = .error .noStateError ∧
        (UnveilState storeCb reqForged).1 = .ok "") :=
  ⟨rfl, by decide, by decide,
    C6_missing_and_absent_state rnd0 storeCb reqEmpty reqForged rfl
      (by decide) (by decide)⟩

/-- C7: at a concrete Authenticate whose secure random source fails during
veiling, the surfaced error is `randomStringGenerationError`, but the
response status the code writes is `http.StatusBadRequest` (400), a 4xx,
not the 5xx the spec's error taxonomy prescribes. -/
theorem C7_divergence_status_400 :
    (Authenticate envRndFail [] req0).status = 400 ∧
      (Authenticate envRndFail [] req0).veilErr =
        some StateStorageError.randomStringGenerationError :=
  ⟨rfl, rfl⟩

/-- C8: a successful Unveil does not modify the session store, and a second
Unveil of the same key returns the same real state as the first. -/
theorem C8_unveil_preserves_store (store : SessionStore) (req : Request)
    (v : String) (hne : req.state ≠ "")
    (hv : store.getString req.state = v) :
    UnveilState store req = (.ok v, store) ∧
      (UnveilState (UnveilState store req).2 req).1 = .ok v := by
  have h : UnveilState store req = (.ok v, store) := by
    simp [UnveilState, hne, hv]
  refine ⟨h, ?_⟩
  rw [h]
  simp [UnveilState, hne, hv]

/-- C8 witness: repeated unveiling of a concrete stored key. -/
theorem C8_witness :
    reqCb.state ≠ "" ∧ storeCb.getString reqCb.state = "jwtstate" ∧
      (UnveilState storeCb reqCb = (.ok "jwtstate", storeCb) ∧
        (UnveilState (UnveilState storeCb reqCb).2 reqCb).1 =
          .ok "jwtstate") :=
  ⟨by decide, rfl,
    C8_unveil_preserves_store storeCb reqCb "jwtstate" (by decide) rfl⟩

/-- C9: every veiled state returned by a successful Veil has length exactly
32; each of its characters is in the 36-symbol alphabet; position `k` is
the alphabet character selected by the secure source's draw `k`; and the
index-to-character map is injective, so uniform draws give uniform
characters. -/
theorem C9_veiled_state_shape (rnd : Nat → Option (Fin 36))
    (store store' : SessionStore) (req : Request) (veiled : String)
    (h : VeilRealState rnd store req = (.ok veiled, store')) :
    veiled.length = 32 ∧ (∀ c ∈ veiled.data, c ∈ letterBytes.data) ∧
      (∀ k, k < 32 →
        ∃ j, rnd k = some j ∧ veiled.data.getD k 'a' = letterAt j) ∧
      ∀ a b : Fin 36, letterAt a = letterAt b → a = b := by
  have hr : randStringBytes rnd 32 = .ok veiled := by
    unfold VeilRealState at h
    by_cases hs : req.state = ""
    · rw [if_pos hs] at h; simp at h
    · rw [if_neg hs] at h
      rcases hrb : randStringBytes rnd 32 with e | s <;> rw [hrb] at h
      · simp at h
      · simp only [Prod.mk.injEq, Except.ok.injEq] at h
        rw [h.1]
  unfold randStringBytes at hr
  rcases hc : randChars rnd 0 32 with _ | cs <;> rw [hc] at hr
  · simp at hr
  · simp only [Except.ok.injEq] at hr
    subst hr
    refine ⟨?_, ?_, ?_, by decide⟩
    · rw [String.length_mk]
      exact randChars_length rnd 32 0 cs hc
    · intro c hcmem
      exact randChars_mem rnd 32 0 cs hc c hcmem
    · intro k hk
      have := randChars_getD rnd 32 0 cs hc k hk
      simpa using this

/-- C9 witness: the shape of a concrete veiled state. -/
theorem C9_witness :
    VeilRealState rnd0 [] req0 = (.ok sA, [(sA, "jwtstate")]) ∧
      (sA.length = 32 ∧ (∀ c ∈ sA.data, c ∈ letterBytes.data) ∧
        (∀ k, k < 32 →
          ∃ j, rnd0 k = some j ∧ sA.data.getD k 'a' = letterAt j) ∧
        ∀ a b : Fin 36, letterAt a = letterAt b → a = b) :=
  ⟨rfl, C9_veiled_state_shape rnd0 [] [(sA, "jwtstate")] req0 sA rfl⟩

/-- C10 counterexample: at a concrete request, the Title and Message the
callback error page renders are exactly the raw `error` and
`error_description` query values supplied by the client, refuting the
claim that the rendered values are never the raw query-string values. -/
theorem C10_counterexample :
    (CallbackErrorHandler true reqErr).1.Title = reqErr.errorParam ∧
      (CallbackErrorHandler true reqErr).1.Message =
        reqErr.errorDescriptionParam :=
  ⟨rfl, rfl⟩

/-- C10 (amended): the Title and Message rendered into the callback error
page are exactly the request's raw `error` and `error_description`
query parameters, echoed directly; they do not originate from the
exchange result. -/
theorem C10_amended_error_page_echoes_query (templateOk : Bool)
    (req : Request) :
    (CallbackErrorHandler templateOk req).1 =
      { Title := req.errorParam, Message := req.errorDescriptionParam } :=
  rfl

end SPI
